import Mathlib

/-!
Shallow embedding of the event-driven orchestration core of
`ros_sugar` (file `ros_sugar/launch/launcher.py`, class `Launcher`),
together with theorems settling the specification claims about it.

Conventions:
* Python objects that are compared by identity (components, events,
  ROS launch actions) are modelled as structures carrying a numeric
  `id` field that stands for the object identity.
* Python dictionaries (which keep insertion order) are modelled as
  association lists; exceptions are modelled with `Except`.
-/

namespace RosSugar

/-! ### Values crossing the external-processor IPC bridge

The bridge serializes scalars and nested numeric arrays with msgpack
(patched by msgpack_numpy).  msgpack is an external dependency of the
repository, so it is modelled at its boundary: `packb` wraps a value
into an opaque byte payload and `unpackb` recovers it (a lossless,
self-describing codec, as the wire-format interface states). -/

/-- A value that can travel over the bridge: an integer scalar or a
(nested) array of values. -/
inductive Val where
  | int (z : Int)
  | arr (elems : List Val)

/-- Opaque serialized byte payload produced by the msgpack boundary model. -/
structure Bytes where
  payload : Val

/-- Boundary model of `msgpack.packb`. -/
def packb (v : Val) : Bytes := ⟨v⟩

/-- Boundary model of `msgpack.unpackb`. -/
def unpackb (b : Bytes) : Val := b.payload

/-- Result of one `conn.recv(1024)` call: an empty (falsy) read or a
payload. -/
inductive RecvData where
  | empty
  | bytes (b : Bytes)

/-- The argument handed to `conn.sendall`: serialized bytes, or — as
the source does after rebinding `data = msgpack.unpackb(data)` — the
deserialized object itself. -/
inductive SendArg where
  | bytes (b : Bytes)
  | object (v : Val)

namespace Launcher

/-- One iteration of the receive loop in
`Launcher.__listen_for_external_processing`: on an empty read the loop
`continue`s (no response, modelled as `none`); otherwise `data` is
rebound to the deserialized payload, the user function is applied, the
result is serialized into `result` (which is never used again), and
the source executes `conn.sendall(data)` — handing the deserialized
request object to the socket instead of the serialized result. -/
def listen_step (func : Val → Val) (recv : RecvData) : Option SendArg :=
  match recv with
  | .empty => none
  | .bytes b =>
      let data := unpackb b
      let result := func data
      let _result := packb result
      some (SendArg.object data)

end Launcher

/-! ### Lifecycle action handlers

`Transition` ids are taken from the external `lifecycle_msgs/Transition`
message definition used by the source. -/

def TRANSITION_CONFIGURE : Nat := 1
def TRANSITION_ACTIVATE : Nat := 3
def TRANSITION_DEACTIVATE : Nat := 4

/-- Model of `launch_ros.actions.LifecycleTransition` restricted to the
two arguments the source passes. -/
structure LifecycleTransition where
  lifecycle_node_names : List String
  transition_ids : List Nat
deriving DecidableEq

namespace Launcher

/-- `Launcher.start`: configure + activate for the named node. -/
def start (node_name : String) : List LifecycleTransition :=
  [{ lifecycle_node_names := [node_name],
     transition_ids := [TRANSITION_CONFIGURE, TRANSITION_ACTIVATE] }]

/-- `Launcher.stop`: deactivate the named node. -/
def stop (node_name : String) : List LifecycleTransition :=
  [{ lifecycle_node_names := [node_name],
     transition_ids := [TRANSITION_DEACTIVATE] }]

/-- `Launcher.restart`: deactivate + activate for the named node. -/
def restart (node_name : String) : List LifecycleTransition :=
  [{ lifecycle_node_names := [node_name],
     transition_ids := [TRANSITION_DEACTIVATE, TRANSITION_ACTIVATE] }]

end Launcher

/-! ### Data model: components, events, actions

`BaseComponent`, `Event` and `core.action.Action` live outside the
analysed file; the launcher reads only a handful of their attributes,
which are modelled as fields.  Python compares these objects by
identity (none of them declares custom equality), modelled by the `id`
field. -/

/-- Run type of a component, from `config.base_config.ComponentRunType`
(modelled from the spec: components act as timed units, event units,
request/response servers or long-running action servers). -/
inductive ComponentRunType where
  | timed
  | event
  | server
  | action_server
deriving DecidableEq

/-- A managed component as seen by the launcher: its object identity,
its `node_name`, its run type, its declared fallback names and its
method table.  A method is recorded as the list of its parameters,
each entry telling whether that parameter carries a default value
(which is what `inspect.signature(...).parameters` is queried for). -/
structure Component where
  id : Nat
  node_name : String
  run_type : ComponentRunType
  fallbacks : List String
  methods : List (String × List Bool)
deriving DecidableEq

/-- An event as seen by the launcher: object identity plus its `name`
attribute.  Events are used as dictionary keys, hence compared by
identity. -/
structure Event where
  id : Nat
  name : String
deriving DecidableEq

/-- A passthrough `launch.action.Action` (a standard ROS launch
action), opaque to the launcher. -/
structure ROSLaunchAction where
  id : Nat
deriving DecidableEq

/-- An entry of the events/actions dictionary handed to `add_pkg`,
after the normalisation `raw_action if isinstance(raw_action, list)
else [raw_action]`.  The launcher distinguishes passthrough ROS launch
actions, component actions (whose `executable.__self__` is the target
component and which carry a method name), and monitor actions. -/
inductive RegisteredAction where
  | ros (a : ROSLaunchAction)
  | componentAction (target : Component) (action_name : String)
  | monitorAction (id : Nat)
deriving DecidableEq

/-! ### Python dict helpers

`Launcher.__update_dict_list` adds or appends an item in a
`Dict[Any, List]`; dictionaries keep insertion order, and the guard
`if dictionary.get(name):` is a truthiness test, so an existing empty
list also takes the assignment branch. -/

/-- Lookup in an insertion-ordered dictionary modelled as an
association list. -/
def dict_get {κ α : Type} [DecidableEq κ] : List (κ × List α) → κ → Option (List α)
  | [], _ => none
  | p :: rest, k => if p.1 = k then some p.2 else dict_get rest k

/-- Assignment to an existing key of the dictionary (keeps the key's
position, as Python does). -/
def dict_set {κ α : Type} [DecidableEq κ] :
    List (κ × List α) → κ → List α → List (κ × List α)
  | [], _, _ => []
  | p :: rest, k, v =>
      if p.1 = k then (p.1, v) :: dict_set rest k v else p :: dict_set rest k v

/-- `Launcher.__update_dict_list(dictionary, name, value)`: append to
the stored list when `dictionary.get(name)` is truthy, otherwise set
`dictionary[name] = [value]` (a fresh key lands at the end, by
insertion order). -/
def update_dict_list {κ α : Type} [DecidableEq κ] (dict : List (κ × List α))
    (name : κ) (value : α) : List (κ × List α) :=
  match dict_get dict name with
  | some l => if l.isEmpty then dict_set dict name [value]
              else dict_set dict name (l ++ [value])
  | none => dict ++ [(name, [value])]

/-- A sequence of registrations of actions under events, processed in
order through `update_dict_list` (this is exactly how both
`__rewrite_actions_for_components` and
`_setup_component_events_handlers` populate their dictionaries). -/
def register_all {κ α : Type} [DecidableEq κ] :
    List (κ × List α) → List (κ × α) → List (κ × List α)
  | dict, [] => dict
  | dict, (k, v) :: rest => register_all (update_dict_list dict k v) rest

/-- The values registered under key `k`, in registration order. -/
def actions_for {κ α : Type} [DecidableEq κ] (regs : List (κ × α)) (k : κ) :
    List α :=
  (regs.filter (fun p => decide (p.1 = k))).map Prod.snd

/-! ### Action dispatch: `Launcher._get_action_launch_entity`

The function reads `action.action_name`, `action.parent_component` and
the launcher's attribute table: `getattr(self, ...)` either raises
`AttributeError` (turned into `InvalidAction`) or returns a method
whose `action_handler` decoration is checked by `has_decorator`. -/

/-- The fields of a `core.action.Action` that
`_get_action_launch_entity` reads. -/
structure DispatchAction where
  action_name : String
  parent_component : String
deriving DecidableEq

/-- The launcher's callable attributes, paired with whether each one
carries the `action_handler` decorator; in the source only `start`,
`stop` and `restart` are decorated. -/
def launcher_attributes : List (String × Bool) :=
  [("add_pkg", false), ("configure", false),
   ("start", true), ("stop", true), ("restart", true),
   ("on_fail", false), ("add_py_executable", false), ("add_method", false),
   ("bringup", false)]

/-- Attribute lookup on the launcher: `none` models `AttributeError`,
`some b` an attribute whose handler decoration is `b`. -/
def lookup_attribute (name : String) : Option Bool :=
  (launcher_attributes.find? (fun p => p.1 == name)).map Prod.snd

/-- Errors raised as `InvalidAction` (from `ros_sugar.utils`). -/
inductive InvalidAction where
  | notEventHandler (action_name : String)
  | unavailableComponentAction (parent_component action_name : String)
  | unknownActionComponent (parent_component : String)
deriving DecidableEq

/-- The Python loop `comp = None; for comp in components: if
comp.node_name == action.parent_component: break` followed by the test
`if not comp`: the loop variable survives the loop, so the result is
`none` only for an empty list; otherwise it is the first component
with a matching name or, when none matches, the last element
iterated. -/
def loop_find_component (parent : String) : List Component → Option Component
  | [] => none
  | c :: rest =>
      if c.node_name = parent then some c
      else
        match loop_find_component parent rest with
        | some c2 => some c2
        | none => some c

/-- Outcome of `_get_action_launch_entity`: an `InvalidAction`
exception, or the invocation of the named handler with
`node_name=action.parent_component` and the found component injected. -/
inductive DispatchResult where
  | invalid (e : InvalidAction)
  | invoke (action_name node_name : String) (component : Component)
deriving DecidableEq

/-- `Launcher._get_action_launch_entity`: look the action's method up
on the launcher, check its `action_handler` decoration, then run the
component-search loop and either raise or invoke. -/
def get_action_launch_entity (components : List Component)
    (action : DispatchAction) : DispatchResult :=
  match lookup_attribute action.action_name with
  | none => .invalid (.unavailableComponentAction action.parent_component
      action.action_name)
  | some false => .invalid (.notEventHandler action.action_name)
  | some true =>
      match loop_find_component action.parent_component components with
      | none => .invalid (.unknownActionComponent action.parent_component)
      | some comp => .invoke action.action_name action.parent_component comp

/-! ### Event handler setup: `Launcher._setup_internal_events_handlers`

For each stored event the source first appends a `LogInfo` entity, then
one entity per action in stored order: passthrough ROS actions as-is,
component actions (when nodes run in processes) through
`_get_action_launch_entity`, anything else through
`action.launch_action(monitor_node=...)`. -/

/-- An entity registered under an internal event handler. -/
inductive LaunchEntity where
  | log_info (event_name : String)
  | ros_passthrough (a : ROSLaunchAction)
  | dispatched (d : DispatchResult)
  | launch_callable (a : RegisteredAction)
deriving DecidableEq

/-- The entity generated for one stored action. -/
def entity_of (components : List Component) (nodes_in_processes : Bool) :
    RegisteredAction → LaunchEntity
  | .ros a => .ros_passthrough a
  | .componentAction target name =>
      if nodes_in_processes then
        .dispatched (get_action_launch_entity components
          ⟨name, target.node_name⟩)
      else .launch_callable (.componentAction target name)
  | .monitorAction m => .launch_callable (.monitorAction m)

/-- The entity list built for one event by
`_setup_internal_events_handlers` (the `LogInfo` header followed by the
per-action entities, appended in stored order). -/
def entities_for_event (components : List Component)
    (nodes_in_processes : Bool) (event : Event)
    (action_set : List RegisteredAction) : List LaunchEntity :=
  action_set.foldl
    (fun acc a => acc ++ [entity_of components nodes_in_processes a])
    [LaunchEntity.log_info event.name]

/-- The per-event handler registrations performed by
`_setup_internal_events_handlers`, in stored-dictionary order. -/
def setup_internal_events_handlers (components : List Component)
    (nodes_in_processes : Bool)
    (ros_actions : List (Event × List RegisteredAction)) :
    List (String × List LaunchEntity) :=
  ros_actions.map
    (fun p => (p.1.name, entities_for_event components nodes_in_processes p.1 p.2))

/-! ### Launcher state, `add_pkg` and registration-time validation -/

/-- Exceptions raised by the launcher during setup (`ValueError` and
`InvalidAction` in the source, told apart here by constructor). -/
inductive LauncherError where
  | missingPackageInfo
  | invalidActionUnknownComponent (event_name : String) (component_id : Nat)
  | duplicateEventNames (names : List String)
  | duplicateComponentNames (names : List String)
  | noComponents
deriving DecidableEq

/-- The mutable state a `Launcher` builds up during the setup phase
(`__init__` fields touched by `add_pkg`). -/
structure LauncherState where
  enable_monitoring : Bool
  components : List Component
  pkg_executable : List (Option String × Option String)
  components_to_activate_on_start : List (Component × Bool)
  ros_actions : List (Event × List RegisteredAction)
  monitor_actions : List (Event × List RegisteredAction)
  components_actions : List (Event × List RegisteredAction)
deriving DecidableEq

/-- The state right after `Launcher.__init__`. -/
def init_launcher (enable_monitoring : Bool) : LauncherState :=
  { enable_monitoring := enable_monitoring, components := [],
    pkg_executable := [], components_to_activate_on_start := [],
    ros_actions := [], monitor_actions := [], components_actions := [] }

/-- `self.__components_to_activate_on_start.update(...)`: a dict keyed
by component (identity), each key mapped to the `multiprocessing`
flag. -/
def update_activate_dict (d : List (Component × Bool))
    (comps : List Component) (flag : Bool) : List (Component × Bool) :=
  comps.foldl
    (fun acc c =>
      if acc.any (fun p => p.1.id == c.id) then
        acc.map (fun p => if p.1.id == c.id then (p.1, flag) else p)
      else acc ++ [(c, flag)])
    d

/-- One step of `Launcher.__rewrite_actions_for_components`: classify a
single action for a condition.  A passthrough ROS launch action is
stored as-is; a component action is validated with
`components_list.count(action_object) <= 0` (`action_object` being the
bound method's `__self__`, compared by identity) and `InvalidAction` is
raised for an unknown component, naming the condition and the
component; a monitor action goes to the monitor dictionary. -/
def rewrite_one (components_list : List Component) (st : LauncherState)
    (condition : Event) : RegisteredAction → Except LauncherError LauncherState
  | .ros a =>
      .ok { st with ros_actions :=
        update_dict_list st.ros_actions condition (.ros a) }
  | .componentAction target name =>
      if components_list.countP (fun c => c.id == target.id) ≤ 0 then
        .error (.invalidActionUnknownComponent condition.name target.id)
      else
        .ok { st with components_actions :=
          (update_dict_list st.components_actions condition
            (.componentAction target name)) }
  | .monitorAction m =>
      .ok { st with monitor_actions :=
        update_dict_list st.monitor_actions condition (.monitorAction m) }

/-- The inner loop of `__rewrite_actions_for_components` over one
condition's action set. -/
def rewrite_action_set (components_list : List Component) (st : LauncherState)
    (condition : Event) :
    List RegisteredAction → Except LauncherError LauncherState
  | [] => .ok st
  | a :: rest =>
      match rewrite_one components_list st condition a with
      | .error e => .error e
      | .ok st2 => rewrite_action_set components_list st2 condition rest

/-- `Launcher.__rewrite_actions_for_components`: iterate the provided
events/actions dictionary in order, classifying every action. -/
def rewrite_actions_for_components (components_list : List Component)
    (st : LauncherState) :
    List (Event × List RegisteredAction) → Except LauncherError LauncherState
  | [] => .ok st
  | (condition, action_set) :: rest =>
      match rewrite_action_set components_list st condition action_set with
      | .error e => .error e
      | .ok st2 => rewrite_actions_for_components components_list st2 rest

/-- The component/topology extension step of `add_pkg`: extend
`self.components` and `self._pkg_executable` (one package/executable
pair per added component). -/
def add_pkg_extend (st : LauncherState) (components : List Component)
    (pkg entry : Option String) : LauncherState :=
  { st with
    components := st.components ++ components,
    pkg_executable :=
      st.pkg_executable ++ components.map (fun _ => (pkg, entry)) }

/-- The activate-on-start bookkeeping of `add_pkg`
(`if components_to_activate_on_start:` is a truthiness test, so an
empty list behaves like `None` and falls through to the
`activate_all_components_on_start` branch). -/
def add_pkg_activate (st1 : LauncherState) (components : List Component)
    (multiprocessing : Bool) (activate_all_components_on_start : Bool)
    (components_to_activate_on_start : Option (List Component)) :
    LauncherState :=
  match components_to_activate_on_start with
  | some (c :: cs) =>
      { st1 with components_to_activate_on_start :=
          (update_activate_dict st1.components_to_activate_on_start
            (c :: cs) multiprocessing) }
  | _ =>
      if activate_all_components_on_start then
        { st1 with components_to_activate_on_start :=
            (update_activate_dict st1.components_to_activate_on_start
              components multiprocessing) }
      else st1

/-- `Launcher.add_pkg`: reject multiprocessing without package
identifiers, drop them otherwise, extend the component registry and
the launch-topology list, record which components to activate on start
(`events_actions and self.__enable_monitoring` is a Python truthiness
test, so an empty dict behaves like `None`), and finally validate the
provided events/actions dictionary against the components passed to
this very call.  The per-component configuration-file step touches
only the external `BaseComponent.configure` collaborator and is not
modelled. -/
def add_pkg (st : LauncherState) (components : List Component)
    (package_name executable_entry_point : Option String)
    (events_actions : Option (List (Event × List RegisteredAction)))
    (multiprocessing : Bool)
    (activate_all_components_on_start : Bool)
    (components_to_activate_on_start : Option (List Component)) :
    Except LauncherError LauncherState :=
  if multiprocessing = true ∧
      (package_name = none ∨ executable_entry_point = none) then
    .error .missingPackageInfo
  else
    let pkg := if multiprocessing then package_name else none
    let entry := if multiprocessing then executable_entry_point else none
    let st2 : LauncherState :=
      add_pkg_activate (add_pkg_extend st components pkg entry) components
        multiprocessing activate_all_components_on_start
        components_to_activate_on_start
    match events_actions with
    | some (entry0 :: rest) =>
        if st.enable_monitoring then
          rewrite_actions_for_components components st2 (entry0 :: rest)
        else .ok st2
    | _ => .ok st2

/-! ### Monitor setup and bringup -/

/-- The arguments the launcher passes to the `Monitor` constructor. -/
structure MonitorNode where
  components_names : List String
  enable_health_status_monitoring : Bool
  events_actions : List (Event × List RegisteredAction)
  events_to_emit : Option (List Event)
  services_components : List Component
  action_servers_components : List Component
  activate_on_start : List Component
deriving DecidableEq

/-- `Launcher._setup_monitor_node` up to the construction of the
monitor: when `_ros_actions` is non-empty its keys become the internal
events and duplicate internal event names raise `ValueError`; then
duplicate component names raise `ValueError`; otherwise the monitor is
built from the component and action tables. -/
def setup_monitor_node (st : LauncherState) :
    Except LauncherError MonitorNode :=
  if st.ros_actions ≠ [] ∧
      ¬ ((st.ros_actions.map Prod.fst).map Event.name).Nodup then
    .error (.duplicateEventNames ((st.ros_actions.map Prod.fst).map Event.name))
  else
    if ¬ (st.components.map Component.node_name).Nodup then
      .error (.duplicateComponentNames (st.components.map Component.node_name))
    else
      .ok
        { components_names := st.components.map Component.node_name,
          enable_health_status_monitoring := st.enable_monitoring,
          events_actions := st.monitor_actions,
          events_to_emit :=
            if st.ros_actions ≠ [] then some (st.ros_actions.map Prod.fst)
            else none,
          services_components :=
            st.components.filter (fun c => decide (c.run_type = .server)),
          action_servers_components :=
            st.components.filter (fun c => decide (c.run_type = .action_server)),
          activate_on_start :=
            st.components_to_activate_on_start.map Prod.fst }

/-- A member of the launch group built by `bringup`: a component
started in its own process (package and executable known) or in a
thread. -/
inductive LaunchGroupEntry where
  | process (c : Component) (pkg exec : String)
  | thread (c : Component)
deriving DecidableEq

/-- What a successful `bringup` hands to the launch service. -/
structure BringupResult where
  monitor : MonitorNode
  event_handlers : List (String × List LaunchEntity)
  launch_group : List LaunchGroupEntry
deriving DecidableEq

/-- `Launcher.bringup` up to the hand-off to the external
`LaunchService`: fail on an empty component list, set up the monitor
node (which validates names and registers the internal event
handlers), then build the launch group pairing each component with its
recorded package/executable.  The states built by `add_pkg` keep
`components` and `pkg_executable` aligned, so the `zip` mirrors the
indexed access of the source. -/
def bringup (st : LauncherState) : Except LauncherError BringupResult :=
  if st.components = [] then .error .noComponents
  else
    match setup_monitor_node st with
    | .error e => .error e
    | .ok monitor =>
        .ok
          { monitor := monitor,
            event_handlers :=
              setup_internal_events_handlers st.components true st.ros_actions,
            launch_group :=
              (st.components.zip st.pkg_executable).map
                (fun p =>
                  match p.2 with
                  | (some pkg, some exec) => LaunchGroupEntry.process p.1 pkg exec
                  | _ => LaunchGroupEntry.thread p.1) }

/-! ### Fallback configuration: `Launcher.on_fail` -/

/-- Errors `Launcher.on_fail` raises as `ValueError`: a bound
operation with a parameter lacking a default, or an action name that
is not among the component's declared fallbacks. -/
inductive FallbackError where
  | requiredArgument (component_name action_name : String)
  | unavailableFallback (component_name action_name : String)
  | attributeMissing (component_name action_name : String)
deriving DecidableEq

/-- A fallback successfully installed on a component
(`component.on_fail(action, max_retries)`). -/
structure InstalledFallback where
  component_id : Nat
  action_name : String
  max_retries : Option Nat
deriving DecidableEq

/-- `getattr(component, action_name)` followed by
`inspect.signature(method).parameters`: the per-parameter
has-a-default flags of the bound method. -/
def method_params (c : Component) (name : String) : Option (List Bool) :=
  (c.methods.find? (fun p => p.1 == name)).map Prod.snd

/-- The body of the `for component in self.components` loop of
`Launcher.on_fail`: require the action name among the component's
fallbacks, then reject any signature with a parameter missing a
default (`x.default is inspect.Parameter.empty`), otherwise install
the fallback. -/
def on_fail_component (c : Component) (action_name : String)
    (max_retries : Option Nat) : Except FallbackError InstalledFallback :=
  if action_name ∈ c.fallbacks then
    match method_params c action_name with
    | some params =>
        if params.any (fun has_default => !has_default) then
          .error (.requiredArgument c.node_name action_name)
        else .ok ⟨c.id, action_name, max_retries⟩
    | none => .error (.attributeMissing c.node_name action_name)
  else .error (.unavailableFallback c.node_name action_name)

namespace Launcher

/-- `Launcher.on_fail`: apply the fallback configuration to every
component in order, stopping at the first failing one. -/
def on_fail (action_name : String) (max_retries : Option Nat) :
    List Component → Except FallbackError (List InstalledFallback)
  | [] => .ok []
  | c :: rest =>
      match on_fail_component c action_name max_retries with
      | .error e => .error e
      | .ok f =>
          match on_fail action_name max_retries rest with
          | .error e => .error e
          | .ok fs => .ok (f :: fs)

end Launcher

/-! ### Concrete sample data used by witnesses and counterexamples -/

/-- Increment-on-integers user function used to exhibit the bridge
behaviour on a non-identity processor. -/
def incrFunc : Val → Val
  | .int z => .int (z + 1)
  | v => v

/-- The component used in the unknown-component dispatch scenario: its
node name is "a". -/
def componentA : Component :=
  { id := 1, node_name := "a", run_type := .timed, fallbacks := [],
    methods := [] }

/-- A second sample component, named "b". -/
def componentB : Component :=
  { id := 2, node_name := "b", run_type := .timed, fallbacks := [],
    methods := [] }

/-- A component sharing `componentA`'s node name but not its identity. -/
def componentA2 : Component :=
  { id := 3, node_name := "a", run_type := .timed, fallbacks := [],
    methods := [] }

/-- A component with a declared fallback "restart_me" whose bound
method has one parameter lacking a default. -/
def componentNeedsArg : Component :=
  { id := 4, node_name := "needs_arg", run_type := .timed,
    fallbacks := ["restart_me"],
    methods := [("restart_me", [false])] }

/-- Two distinct event objects sharing the name "E". -/
def eventE1 : Event := ⟨1, "E"⟩

/-- Second event object named "E" (distinct identity). -/
def eventE2 : Event := ⟨2, "E"⟩

/-- An event named "E1". -/
def eventNamedE1 : Event := ⟨3, "E1"⟩

/-- Launcher state with two same-named events, each carrying only a
monitor action, as produced by registering them through `add_pkg`. -/
def stDupMonitorEvents : LauncherState :=
  { enable_monitoring := true,
    components := [componentA],
    pkg_executable := [(none, none)],
    components_to_activate_on_start := [(componentA, false)],
    ros_actions := [],
    monitor_actions :=
      [(eventE1, [.monitorAction 7]), (eventE2, [.monitorAction 8])],
    components_actions := [] }

/-- Launcher state holding two components that share a node name. -/
def stDupComponents : LauncherState :=
  { enable_monitoring := true,
    components := [componentA, componentA2],
    pkg_executable := [(none, none), (none, none)],
    components_to_activate_on_start := [],
    ros_actions := [], monitor_actions := [], components_actions := [] }

/-- Launcher state with two distinct internal events (ROS passthrough
actions) sharing the name "E". -/
def stDupInternalEvents : LauncherState :=
  { enable_monitoring := true,
    components := [componentA],
    pkg_executable := [(none, none)],
    components_to_activate_on_start := [],
    ros_actions := [(eventE1, [.ros ⟨20⟩]), (eventE2, [.ros ⟨21⟩])],
    monitor_actions := [], components_actions := [] }

/-- Launcher state that already holds `componentA` from an earlier
registration call. -/
def stWithComponentA : LauncherState :=
  { enable_monitoring := true,
    components := [componentA],
    pkg_executable := [(none, none)],
    components_to_activate_on_start := [(componentA, false)],
    ros_actions := [], monitor_actions := [], components_actions := [] }

/-! ### Helper lemmas about the dictionary and registration routines -/

theorem dict_get_dict_set_eq {κ α : Type} [DecidableEq κ]
    (dict : List (κ × List α)) (k : κ) (v : List α)
    (h : (dict_get dict k).isSome) :
    dict_get (dict_set dict k v) k = some v := by
  induction dict with
  | nil => simp [dict_get] at h
  | cons p rest ih =>
      by_cases hk : p.1 = k
      · simp [dict_get, dict_set, hk]
      · simp [dict_get, dict_set, hk] at h ⊢
        exact ih h

theorem dict_get_dict_set_ne {κ α : Type} [DecidableEq κ]
    (dict : List (κ × List α)) (k k2 : κ) (v : List α) (h : k2 ≠ k) :
    dict_get (dict_set dict k v) k2 = dict_get dict k2 := by
  induction dict with
  | nil => simp [dict_set]
  | cons p rest ih =>
      by_cases hk : p.1 = k
      · simp [dict_get, dict_set, hk, Ne.symm h, ih]
      · by_cases hk2 : p.1 = k2
        · simp [dict_get, dict_set, hk, hk2, h]
        · simp [dict_get, dict_set, hk, hk2, ih]

theorem dict_get_append_new {κ α : Type} [DecidableEq κ]
    (dict : List (κ × List α)) (k : κ) (v : List α)
    (h : dict_get dict k = none) :
    dict_get (dict ++ [(k, v)]) k = some v := by
  induction dict with
  | nil => simp [dict_get]
  | cons p rest ih =>
      by_cases hk : p.1 = k
      · simp [dict_get, hk] at h
      · simp [dict_get, hk] at h ⊢
        exact ih h

theorem dict_get_append_ne {κ α : Type} [DecidableEq κ]
    (dict : List (κ × List α)) (k k2 : κ) (v : List α) (h : k2 ≠ k) :
    dict_get (dict ++ [(k, v)]) k2 = dict_get dict k2 := by
  induction dict with
  | nil => simp [dict_get, Ne.symm h]
  | cons p rest ih =>
      by_cases hk2 : p.1 = k2
      · simp [dict_get, hk2]
      · simp [dict_get, hk2, ih]

/-- After `update_dict_list`, the key's stored list is the old list
with the value appended (a fresh key starts from the empty list). -/
theorem dict_get_update_eq {κ α : Type} [DecidableEq κ]
    (dict : List (κ × List α)) (k : κ) (v : α) :
    dict_get (update_dict_list dict k v) k
      = some ((dict_get dict k).getD [] ++ [v]) := by
  unfold update_dict_list
  cases hget : dict_get dict k with
  | none => simp [dict_get_append_new dict k [v] hget]
  | some l =>
      have hs : (dict_get dict k).isSome := by simp [hget]
      cases l with
      | nil => simp [dict_get_dict_set_eq dict k [v] hs]
      | cons a as => simp [dict_get_dict_set_eq dict k _ hs]

/-- `update_dict_list` leaves every other key untouched. -/
theorem dict_get_update_ne {κ α : Type} [DecidableEq κ]
    (dict : List (κ × List α)) (k k2 : κ) (v : α) (h : k2 ≠ k) :
    dict_get (update_dict_list dict k v) k2 = dict_get dict k2 := by
  unfold update_dict_list
  cases hget : dict_get dict k with
  | none => simp [dict_get_append_ne dict k k2 [v] h]
  | some l =>
      cases l with
      | nil => simp [dict_get_dict_set_ne dict k k2 [v] h]
      | cons a as => simp [dict_get_dict_set_ne dict k k2 _ h]

theorem dict_get_register_all {κ α : Type} [DecidableEq κ]
    (regs : List (κ × α)) (dict : List (κ × List α)) (k : κ) :
    dict_get (register_all dict regs) k
      = match dict_get dict k with
        | some l => some (l ++ actions_for regs k)
        | none => match actions_for regs k with
                  | [] => none
                  | l => some l := by
  induction regs generalizing dict with
  | nil =>
      cases hget : dict_get dict k <;> simp [register_all, actions_for, hget]
  | cons p rest ih =>
      obtain ⟨k1, v1⟩ := p
      by_cases hk : k1 = k
      · subst hk
        have hstep := dict_get_update_eq dict k1 v1
        rw [register_all, ih, hstep]
        cases hget : dict_get dict k1 <;>
          simp [actions_for, hget, List.filter]
      · have hstep := dict_get_update_ne dict k1 k v1 (Ne.symm hk)
        rw [register_all, ih, hstep]
        cases hget : dict_get dict k <;>
          simp [actions_for, hget, List.filter, hk]

theorem entities_for_event_eq_map (components : List Component)
    (nodes_in_processes : Bool) (event : Event)
    (action_set : List RegisteredAction) :
    entities_for_event components nodes_in_processes event action_set
      = LaunchEntity.log_info event.name
          :: action_set.map (entity_of components nodes_in_processes) := by
  have hgen : ∀ (acts : List RegisteredAction) (acc : List LaunchEntity),
      acts.foldl (fun acc a => acc ++ [entity_of components nodes_in_processes a]) acc
        = acc ++ acts.map (entity_of components nodes_in_processes) := by
    intro acts
    induction acts with
    | nil => intro acc; simp
    | cons a rest ih =>
        intro acc
        simp [List.foldl, ih]
  simp [entities_for_event, hgen]

/-- If the rewrite loop accepts a whole action set for a condition,
then every component action in that set referenced a component of the
current call's component list. -/
theorem rewrite_action_set_ok_valid (cl : List Component)
    (st st2 : LauncherState) (cond : Event) (acts : List RegisteredAction)
    (h : rewrite_action_set cl st cond acts = .ok st2) :
    ∀ t n, RegisteredAction.componentAction t n ∈ acts →
      cl.countP (fun c => c.id == t.id) ≠ 0 := by
  induction acts generalizing st with
  | nil => intro t n hmem; simp at hmem
  | cons a rest ih =>
      intro t n hmem
      rw [rewrite_action_set] at h
      cases hone : rewrite_one cl st cond a with
      | error e => rw [hone] at h; exact Except.noConfusion h
      | ok st3 =>
          rw [hone] at h
          rcases List.mem_cons.mp hmem with heq | hrest
          · subst heq
            intro hcnt0
            rw [rewrite_one, if_pos (Nat.le_zero.mpr hcnt0)] at hone
            exact Except.noConfusion hone
          · exact ih st3 h t n hrest

/-- If the rewrite loop rejects an action set, the raised error is an
`InvalidAction` naming the condition and a component action of the set
whose target missed the current call's component list. -/
theorem rewrite_action_set_error_shape (cl : List Component)
    (st : LauncherState) (cond : Event) (acts : List RegisteredAction)
    (e : LauncherError)
    (h : rewrite_action_set cl st cond acts = .error e) :
    ∃ t n, RegisteredAction.componentAction t n ∈ acts ∧
      cl.countP (fun c => c.id == t.id) = 0 ∧
      e = .invalidActionUnknownComponent cond.name t.id := by
  induction acts generalizing st with
  | nil => rw [rewrite_action_set] at h; exact Except.noConfusion h
  | cons a rest ih =>
      rw [rewrite_action_set] at h
      cases hone : rewrite_one cl st cond a with
      | ok st3 =>
          rw [hone] at h
          obtain ⟨t, n, hmem, hcnt, he⟩ := ih st3 h
          exact ⟨t, n, List.mem_cons_of_mem _ hmem, hcnt, he⟩
      | error e2 =>
          rw [hone] at h
          have he2 : e2 = e := by
            simpa using h
          cases a with
          | ros a0 => rw [rewrite_one] at hone; exact Except.noConfusion hone
          | monitorAction m =>
              rw [rewrite_one] at hone; exact Except.noConfusion hone
          | componentAction t n =>
              rw [rewrite_one] at hone
              by_cases hcnt : cl.countP (fun c => c.id == t.id) ≤ 0
              · rw [if_pos hcnt] at hone
                have hshape :
                    LauncherError.invalidActionUnknownComponent cond.name t.id
                      = e2 := by
                  simpa using hone
                exact ⟨t, n, List.mem_cons_self _ _, Nat.le_zero.mp hcnt,
                  (he2 ▸ hshape).symm⟩
              · rw [if_neg hcnt] at hone
                exact Except.noConfusion hone

/-- Dictionary-level version of `rewrite_action_set_ok_valid`. -/
theorem rewrite_dict_ok_valid (cl : List Component)
    (st st2 : LauncherState) (dict : List (Event × List RegisteredAction))
    (h : rewrite_actions_for_components cl st dict = .ok st2) :
    ∀ ev acts, (ev, acts) ∈ dict →
      ∀ t n, RegisteredAction.componentAction t n ∈ acts →
        cl.countP (fun c => c.id == t.id) ≠ 0 := by
  induction dict generalizing st with
  | nil => intro ev acts hmem; simp at hmem
  | cons p rest ih =>
      obtain ⟨cond, action_set⟩ := p
      intro ev acts hmem t n hact
      rw [rewrite_actions_for_components] at h
      cases hset : rewrite_action_set cl st cond action_set with
      | error e => rw [hset] at h; exact Except.noConfusion h
      | ok st3 =>
          rw [hset] at h
          rcases List.mem_cons.mp hmem with heq | hrest
          · obtain ⟨rfl, rfl⟩ := Prod.mk.injEq .. ▸ heq
            exact rewrite_action_set_ok_valid cl st st3 ev acts hset t n hact
          · exact ih st3 h ev acts hrest t n hact

/-- Dictionary-level version of `rewrite_action_set_error_shape`. -/
theorem rewrite_dict_error_shape (cl : List Component)
    (st : LauncherState) (dict : List (Event × List RegisteredAction))
    (e : LauncherError)
    (h : rewrite_actions_for_components cl st dict = .error e) :
    ∃ ev acts t n, (ev, acts) ∈ dict ∧
      RegisteredAction.componentAction t n ∈ acts ∧
      cl.countP (fun c => c.id == t.id) = 0 ∧
      e = .invalidActionUnknownComponent ev.name t.id := by
  induction dict generalizing st with
  | nil => rw [rewrite_actions_for_components] at h; exact Except.noConfusion h
  | cons p rest ih =>
      obtain ⟨cond, action_set⟩ := p
      rw [rewrite_actions_for_components] at h
      cases hset : rewrite_action_set cl st cond action_set with
      | ok st3 =>
          rw [hset] at h
          obtain ⟨ev, acts, t, n, hmem, hact, hcnt, he⟩ := ih st3 h
          exact ⟨ev, acts, t, n, List.mem_cons_of_mem _ hmem, hact, hcnt, he⟩
      | error e2 =>
          rw [hset] at h
          have he2 : e2 = e := by simpa using h
          obtain ⟨t, n, hact, hcnt, he⟩ :=
            rewrite_action_set_error_shape cl st cond action_set e2 hset
          exact ⟨cond, action_set, t, n, List.mem_cons_self _ _, hact, hcnt,
            he2 ▸ he⟩

/-- If the `on_fail` loop over all components succeeds, every single
component accepted the fallback configuration. -/
theorem on_fail_ok_all (action_name : String) (max_retries : Option Nat)
    (comps : List Component) (fs : List InstalledFallback)
    (h : Launcher.on_fail action_name max_retries comps = .ok fs) :
    ∀ c ∈ comps, ∃ f, on_fail_component c action_name max_retries = .ok f := by
  induction comps generalizing fs with
  | nil => intro c hc; simp at hc
  | cons c0 rest ih =>
      intro c hc
      rw [Launcher.on_fail] at h
      cases h0 : on_fail_component c0 action_name max_retries with
      | error e => rw [h0] at h; exact Except.noConfusion h
      | ok f0 =>
          rw [h0] at h
          cases hr : Launcher.on_fail action_name max_retries rest with
          | error e => rw [hr] at h; exact Except.noConfusion h
          | ok fs0 =>
              rw [hr] at h
              rcases List.mem_cons.mp hc with rfl | hcr
              · exact ⟨f0, h0⟩
              · exact ih fs0 hr c hcr

/-- When monitoring is enabled and the package check passes, `add_pkg`
with a non-empty events/actions dictionary hands the dictionary to
`__rewrite_actions_for_components`, validated against the components
passed to this very call. -/
theorem add_pkg_monitoring_rewrite (st : LauncherState)
    (components : List Component)
    (package_name executable_entry_point : Option String)
    (p : Event × List RegisteredAction)
    (ea2 : List (Event × List RegisteredAction))
    (mp aa : Bool) (cta : Option (List Component))
    (hmon : st.enable_monitoring = true)
    (hmp : ¬(mp = true ∧
      (package_name = none ∨ executable_entry_point = none))) :
    add_pkg st components package_name executable_entry_point
        (some (p :: ea2)) mp aa cta
      = rewrite_actions_for_components components
          (add_pkg_activate
            (add_pkg_extend st components
              (if mp then package_name else none)
              (if mp then executable_entry_point else none))
            components mp aa cta)
          (p :: ea2) := by
  unfold add_pkg
  rw [if_neg hmp, hmon]
  rfl

/-! ### Claim theorems -/

/-- C1: the claim states that each loop iteration with a non-empty
payload serializes the user function's result and sends that back, so
the decoded response equals the function applied to the sent value.
The source instead executes `conn.sendall(data)` after `data` was
rebound to the deserialized payload: with the increment function and
payload `3`, the worker hands the request object `3` to the socket —
it never sends the packed result, which would decode to `4`. -/
theorem external_processor_echoes_input_not_result :
    Launcher.listen_step incrFunc (RecvData.bytes (packb (Val.int 3)))
      = some (SendArg.object (Val.int 3)) ∧
    incrFunc (Val.int 3) = Val.int 4 ∧
    Launcher.listen_step incrFunc (RecvData.bytes (packb (Val.int 3)))
      ≠ some (SendArg.bytes (packb (incrFunc (Val.int 3)))) := by
  refine ⟨rfl, rfl, ?_⟩
  intro h
  rw [show Launcher.listen_step incrFunc (RecvData.bytes (packb (Val.int 3)))
      = some (SendArg.object (Val.int 3)) from rfl] at h
  have h2 := Option.some.injEq .. ▸ h
  simp at h2

/-- C7: the three built-in lifecycle handlers are pure mappings from a
component name to ordered transition sequences: `start` issues
configure then activate, `stop` issues deactivate only, and `restart`
issues deactivate then activate, each targeting exactly the named
node. -/
theorem lifecycle_handlers_transition_sequences (node_name : String) :
    Launcher.start node_name
      = [{ lifecycle_node_names := [node_name],
           transition_ids := [TRANSITION_CONFIGURE, TRANSITION_ACTIVATE] }] ∧
    Launcher.stop node_name
      = [{ lifecycle_node_names := [node_name],
           transition_ids := [TRANSITION_DEACTIVATE] }] ∧
    Launcher.restart node_name
      = [{ lifecycle_node_names := [node_name],
           transition_ids := [TRANSITION_DEACTIVATE, TRANSITION_ACTIVATE] }] :=
  ⟨rfl, rfl, rfl⟩

/-- C9: actions registered for an event accumulate in registration
order — one `update_dict_list` step appends to the existing list, and
a whole registration sequence stores under each event exactly its
values in registration order — and the entity list dispatched for an
event by `_setup_internal_events_handlers` follows that stored order
(after the `LogInfo` header). -/
theorem event_actions_accumulate_in_order
    (dict : List (Event × List RegisteredAction))
    (regs : List (Event × RegisteredAction)) (k : Event) (v : RegisteredAction)
    (components : List Component) (nodes_in_processes : Bool)
    (acts : List RegisteredAction) :
    dict_get (update_dict_list dict k v) k
      = some ((dict_get dict k).getD [] ++ [v]) ∧
    (actions_for regs k ≠ [] →
      dict_get (register_all ([] : List (Event × List RegisteredAction)) regs) k
        = some (actions_for regs k)) ∧
    entities_for_event components nodes_in_processes k acts
      = LaunchEntity.log_info k.name
          :: acts.map (entity_of components nodes_in_processes) := by
  refine ⟨dict_get_update_eq dict k v, ?_, entities_for_event_eq_map _ _ _ _⟩
  intro hne
  have h := dict_get_register_all regs ([] : List (Event × List RegisteredAction)) k
  rw [show dict_get ([] : List (Event × List RegisteredAction)) k = none from rfl] at h
  cases hsel : actions_for regs k with
  | nil => exact absurd hsel hne
  | cons a as => rw [h, hsel]

/-- Witness for C9 at concrete inputs: two registrations under the
same event accumulate in order and dispatch in that order. -/
theorem event_actions_accumulate_in_order_witness :
    dict_get (update_dict_list [] eventNamedE1 (RegisteredAction.ros ⟨10⟩))
        eventNamedE1
      = some [RegisteredAction.ros ⟨10⟩] ∧
    dict_get (register_all ([] : List (Event × List RegisteredAction))
        [(eventNamedE1, .ros ⟨10⟩), (eventNamedE1, .ros ⟨11⟩)]) eventNamedE1
      = some [RegisteredAction.ros ⟨10⟩, RegisteredAction.ros ⟨11⟩] ∧
    entities_for_event [] true eventNamedE1 [.ros ⟨10⟩, .ros ⟨11⟩]
      = [LaunchEntity.log_info "E1", LaunchEntity.ros_passthrough ⟨10⟩,
         LaunchEntity.ros_passthrough ⟨11⟩] := by
  have h := event_actions_accumulate_in_order []
    [(eventNamedE1, .ros ⟨10⟩), (eventNamedE1, .ros ⟨11⟩)]
    eventNamedE1 (.ros ⟨10⟩) [] true [.ros ⟨10⟩, .ros ⟨11⟩]
  refine ⟨?_, ?_, ?_⟩
  · rw [h.1]; rfl
  · rw [h.2.1 (by decide)]; rfl
  · rw [h.2.2]; rfl

/-- C2: the claim states that dispatching a component-local action
whose declared parent component matches no component's node name
raises `InvalidAction` mentioning that name.  In the source the search
loop `comp = None; for comp in self.components: ... break` leaves
`comp` bound to the last component when nothing matches, so the guard
`if not comp` only fires on an empty component list: with the single
component named "a" and an action declaring parent "b", dispatch
invokes the handler with the unrelated component instead of raising. -/
theorem dispatch_unknown_component_not_detected :
    get_action_launch_entity [componentA] ⟨"start", "b"⟩
      = DispatchResult.invoke "start" "b" componentA ∧
    componentA.node_name ≠ "b" ∧
    (∀ e, get_action_launch_entity [componentA] ⟨"start", "b"⟩
        ≠ DispatchResult.invalid e) := by
  refine ⟨by decide, by decide, ?_⟩
  intro e h
  rw [show get_action_launch_entity [componentA] ⟨"start", "b"⟩
      = DispatchResult.invoke "start" "b" componentA by decide] at h
  exact DispatchResult.noConfusion h

/-- C8: dispatch verifies that the requested operation carries the
`action_handler` capability before invoking anything: when the named
launcher attribute does not exist, or exists without the decorator,
`_get_action_launch_entity` raises `InvalidAction` and never reaches
the invocation. -/
theorem dispatch_requires_action_handler (components : List Component)
    (action : DispatchAction)
    (h : lookup_attribute action.action_name ≠ some true) :
    (lookup_attribute action.action_name = none →
      get_action_launch_entity components action
        = .invalid (.unavailableComponentAction action.parent_component
            action.action_name)) ∧
    (lookup_attribute action.action_name = some false →
      get_action_launch_entity components action
        = .invalid (.notEventHandler action.action_name)) ∧
    (∀ n m c, get_action_launch_entity components action
        ≠ DispatchResult.invoke n m c) := by
  refine ⟨?_, ?_, ?_⟩
  · intro hnone
    simp [get_action_launch_entity, hnone]
  · intro hfalse
    simp [get_action_launch_entity, hfalse]
  · intro n m c hc
    unfold get_action_launch_entity at hc
    cases hattr : lookup_attribute action.action_name with
    | none => rw [hattr] at hc; exact DispatchResult.noConfusion hc
    | some b =>
        cases b with
        | false => rw [hattr] at hc; exact DispatchResult.noConfusion hc
        | true => exact h hattr

/-- Witness for C8 at a concrete input: `bringup` is a launcher
attribute without the `action_handler` decorator, so dispatching it is
rejected. -/
theorem dispatch_requires_action_handler_witness :
    get_action_launch_entity [] ⟨"bringup", "x"⟩
      = DispatchResult.invalid (.notEventHandler "bringup") :=
  (dispatch_requires_action_handler [] ⟨"bringup", "x"⟩ (by decide)).2.1
    (by decide)

/-- C3 counterexample: the duplicate-event-name check in
`_setup_monitor_node` inspects only `_ros_actions` (the events carrying
passthrough ROS launch actions).  Registering through `add_pkg` two
distinct events that share the name "E", each with only a monitor
action, yields a state on which `bringup` completes its setup with no
configuration error, contradicting the claim that every pair of
same-named registered events fails setup. -/
theorem duplicate_monitor_event_names_pass_setup :
    add_pkg (init_launcher true) [componentA] none (some "executable")
        (some [(eventE1, [.monitorAction 7]), (eventE2, [.monitorAction 8])])
        false true none
      = .ok stDupMonitorEvents ∧
    eventE1 ≠ eventE2 ∧
    eventE1.name = eventE2.name ∧
    (stDupMonitorEvents.monitor_actions.map (fun p => p.1.name)) = ["E", "E"] ∧
    (bringup stDupMonitorEvents).isOk = true := by
  refine ⟨rfl, by decide, rfl, rfl, rfl⟩

/-- C3 (amended): the duplicate-name guard applies to the internal
events — those whose registered actions are passthrough ROS launch
actions, stored in `_ros_actions`.  When two such stored events share
a name, setup fails with the duplicate-event configuration error
before any launch, and nothing is handed to the launch service;
same-named events carrying only monitor/component actions are stored
as distinct entries (never merged) but are not rejected. -/
theorem duplicate_internal_event_names_fail_setup (st : LauncherState)
    (h : ¬ ((st.ros_actions.map Prod.fst).map Event.name).Nodup) :
    (∃ e, bringup st = .error e) ∧
    (st.components ≠ [] →
      bringup st = .error (.duplicateEventNames
        ((st.ros_actions.map Prod.fst).map Event.name))) ∧
    (∀ r, bringup st ≠ .ok r) := by
  have hros : st.ros_actions ≠ [] := by
    intro hnil
    rw [hnil] at h
    simp at h
  have hsetup : setup_monitor_node st
      = .error (.duplicateEventNames
          ((st.ros_actions.map Prod.fst).map Event.name)) := by
    unfold setup_monitor_node
    rw [if_pos ⟨hros, h⟩]
  by_cases hc : st.components = []
  · refine ⟨⟨.noComponents, ?_⟩, fun hcne => absurd hc hcne, ?_⟩
    · unfold bringup
      rw [if_pos hc]
    · intro r hr
      unfold bringup at hr
      rw [if_pos hc] at hr
      exact Except.noConfusion hr
  · have hbr : bringup st = .error (.duplicateEventNames
        ((st.ros_actions.map Prod.fst).map Event.name)) := by
      unfold bringup
      rw [if_neg hc, hsetup]
    refine ⟨⟨_, hbr⟩, fun _ => hbr, ?_⟩
    intro r hr
    rw [hbr] at hr
    exact Except.noConfusion hr

/-- Witness for the amended C3: two distinct internal events named "E"
with passthrough ROS actions make `bringup` fail with the duplicate
event-names error. -/
theorem duplicate_internal_event_names_fail_setup_witness :
    bringup stDupInternalEvents
      = .error (.duplicateEventNames ["E", "E"]) := by
  have h := (duplicate_internal_event_names_fail_setup stDupInternalEvents
    (by decide)).2.1 (by decide)
  exact h

/-- C4: when any two registered components share a node name, `bringup`
raises a configuration error before anything is handed to the launch
service — the error names the duplicate-carrying name list whenever
the earlier internal-event-name check does not fire first — and no
launch group is ever produced. -/
theorem duplicate_component_names_fail_bringup (st : LauncherState)
    (h : ¬ (st.components.map Component.node_name).Nodup) :
    (∃ e, bringup st = .error e) ∧
    (((st.ros_actions.map Prod.fst).map Event.name).Nodup →
      bringup st = .error (.duplicateComponentNames
        (st.components.map Component.node_name))) ∧
    (∀ r, bringup st ≠ .ok r) := by
  have hc : st.components ≠ [] := by
    intro hnil
    rw [hnil] at h
    simp at h
  have hsetup : ∃ e, setup_monitor_node st = .error e := by
    unfold setup_monitor_node
    by_cases hev : st.ros_actions ≠ [] ∧
        ¬ ((st.ros_actions.map Prod.fst).map Event.name).Nodup
    · exact ⟨_, by rw [if_pos hev]⟩
    · exact ⟨_, by rw [if_neg hev, if_pos h]⟩
  obtain ⟨e, he⟩ := hsetup
  have hbr : bringup st = .error e := by
    unfold bringup
    rw [if_neg hc, he]
  refine ⟨⟨e, hbr⟩, ?_, ?_⟩
  · intro hnames
    have hev : ¬ (st.ros_actions ≠ [] ∧
        ¬ ((st.ros_actions.map Prod.fst).map Event.name).Nodup) := by
      intro hcontra
      exact hcontra.2 hnames
    have hsetup2 : setup_monitor_node st
        = .error (.duplicateComponentNames
            (st.components.map Component.node_name)) := by
      unfold setup_monitor_node
      rw [if_neg hev, if_pos h]
    unfold bringup
    rw [if_neg hc, hsetup2]
  · intro r hr
    rw [hbr] at hr
    exact Except.noConfusion hr

/-- Witness for C4: two components named "a" make `bringup` fail with
the duplicate component-names error. -/
theorem duplicate_component_names_fail_bringup_witness :
    bringup stDupComponents
      = .error (.duplicateComponentNames ["a", "a"]) := by
  have h := (duplicate_component_names_fail_bringup stDupComponents
    (by decide)).2.1 (by decide)
  exact h

/-- C5: with events monitoring enabled (the spec's registration
contract; with monitoring disabled the dictionary is ignored
entirely), a component-targeted action whose target component is
absent from the component registry — and hence from the components
passed to this call — makes `add_pkg` raise `InvalidAction` naming a
violating owning event and its unknown target component, and no state
is registered; `bringup` has not been involved. -/
theorem unknown_action_component_fails_registration
    (st : LauncherState) (components : List Component)
    (package_name executable_entry_point : Option String)
    (ea : List (Event × List RegisteredAction)) (mp aa : Bool)
    (cta : Option (List Component))
    (hmon : st.enable_monitoring = true)
    (hmp : ¬(mp = true ∧
      (package_name = none ∨ executable_entry_point = none)))
    (ev : Event) (acts : List RegisteredAction) (target : Component)
    (name : String)
    (hin : (ev, acts) ∈ ea)
    (hact : RegisteredAction.componentAction target name ∈ acts)
    (hunknown : ∀ c ∈ st.components ++ components, c.id ≠ target.id) :
    (∃ ev2 acts2 target2 name2,
      (ev2, acts2) ∈ ea ∧
      RegisteredAction.componentAction target2 name2 ∈ acts2 ∧
      components.countP (fun c => c.id == target2.id) = 0 ∧
      add_pkg st components package_name executable_entry_point (some ea)
          mp aa cta
        = .error (.invalidActionUnknownComponent ev2.name target2.id)) ∧
    (∀ st2, add_pkg st components package_name executable_entry_point
        (some ea) mp aa cta ≠ .ok st2) := by
  have hcnt : components.countP (fun c => c.id == target.id) = 0 := by
    rw [List.countP_eq_zero]
    intro c hc
    simp only [beq_iff_eq]
    exact hunknown c (List.mem_append.mpr (Or.inr hc))
  cases ea with
  | nil => simp at hin
  | cons p ea2 =>
      have hred := add_pkg_monitoring_rewrite st components package_name
        executable_entry_point p ea2 mp aa cta hmon hmp
      cases hres : rewrite_actions_for_components components
          (add_pkg_activate
            (add_pkg_extend st components
              (if mp then package_name else none)
              (if mp then executable_entry_point else none))
            components mp aa cta) (p :: ea2) with
      | ok st2 =>
          exact absurd hcnt (rewrite_dict_ok_valid components _ st2 (p :: ea2)
            hres ev acts hin target name hact)
      | error e =>
          obtain ⟨ev2, acts2, t2, n2, hmem2, hact2, hcnt2, he⟩ :=
            rewrite_dict_error_shape components _ (p :: ea2) e hres
          rw [hres] at hred
          refine ⟨⟨ev2, acts2, t2, n2, hmem2, hact2, hcnt2, ?_⟩, ?_⟩
          · rw [hred, he]
          · intro st2 hok
            rw [hred] at hok
            exact Except.noConfusion hok

/-- Witness for C5: registering component "b" together with an action
targeting the never-registered `componentA` raises the unknown
component `InvalidAction` naming event "E1" and the component. -/
theorem unknown_action_component_fails_registration_witness :
    add_pkg (init_launcher true) [componentB] none (some "executable")
        (some [(eventNamedE1, [.componentAction componentA "start"])])
        false true none
      ≠ .ok (init_launcher true) ∧
    add_pkg (init_launcher true) [componentB] none (some "executable")
        (some [(eventNamedE1, [.componentAction componentA "start"])])
        false true none
      = .error (.invalidActionUnknownComponent "E1" 1) := by
  refine ⟨?_, rfl⟩
  exact (unknown_action_component_fails_registration (init_launcher true)
    [componentB] none (some "executable")
    [(eventNamedE1, [.componentAction componentA "start"])] false true none
    rfl (by simp) eventNamedE1 [.componentAction componentA "start"]
    componentA "start" (by simp) (by simp) (by decide)).2 (init_launcher true)

/-- C10: the validation of a component-targeted action in `add_pkg` is
scoped to the components passed to the same call: even when the target
component is already in the orchestrator's registry from an earlier
registration call, its absence from this call's component list makes
`add_pkg` raise `InvalidAction`. -/
theorem action_validation_scoped_to_current_call
    (st : LauncherState) (components : List Component)
    (package_name executable_entry_point : Option String)
    (ea : List (Event × List RegisteredAction)) (mp aa : Bool)
    (cta : Option (List Component))
    (hmon : st.enable_monitoring = true)
    (hmp : ¬(mp = true ∧
      (package_name = none ∨ executable_entry_point = none)))
    (ev : Event) (acts : List RegisteredAction) (target : Component)
    (name : String)
    (hin : (ev, acts) ∈ ea)
    (hact : RegisteredAction.componentAction target name ∈ acts)
    (hreg : target ∈ st.components)
    (hnotin : components.countP (fun c => c.id == target.id) = 0) :
    (∃ ev2 acts2 target2 name2,
      (ev2, acts2) ∈ ea ∧
      RegisteredAction.componentAction target2 name2 ∈ acts2 ∧
      components.countP (fun c => c.id == target2.id) = 0 ∧
      add_pkg st components package_name executable_entry_point (some ea)
          mp aa cta
        = .error (.invalidActionUnknownComponent ev2.name target2.id)) ∧
    (∀ st2, add_pkg st components package_name executable_entry_point
        (some ea) mp aa cta ≠ .ok st2) := by
  cases ea with
  | nil => simp at hin
  | cons p ea2 =>
      have hred := add_pkg_monitoring_rewrite st components package_name
        executable_entry_point p ea2 mp aa cta hmon hmp
      cases hres : rewrite_actions_for_components components
          (add_pkg_activate
            (add_pkg_extend st components
              (if mp then package_name else none)
              (if mp then executable_entry_point else none))
            components mp aa cta) (p :: ea2) with
      | ok st2 =>
          exact absurd hnotin (rewrite_dict_ok_valid components _ st2
            (p :: ea2) hres ev acts hin target name hact)
      | error e =>
          obtain ⟨ev2, acts2, t2, n2, hmem2, hact2, hcnt2, he⟩ :=
            rewrite_dict_error_shape components _ (p :: ea2) e hres
          rw [hres] at hred
          refine ⟨⟨ev2, acts2, t2, n2, hmem2, hact2, hcnt2, ?_⟩, ?_⟩
          · rw [hred, he]
          · intro st2 hok
            rw [hred] at hok
            exact Except.noConfusion hok

/-- Witness for C10: `componentA` sits in the registry from an earlier
call (`stWithComponentA`), yet a second `add_pkg` call adding only
component "b" with an action targeting `componentA` is rejected. -/
theorem action_validation_scoped_to_current_call_witness :
    add_pkg stWithComponentA [componentB] none (some "executable")
        (some [(eventNamedE1, [.componentAction componentA "start"])])
        false true none
      ≠ .ok stWithComponentA ∧
    add_pkg stWithComponentA [componentB] none (some "executable")
        (some [(eventNamedE1, [.componentAction componentA "start"])])
        false true none
      = .error (.invalidActionUnknownComponent "E1" 1) := by
  refine ⟨?_, rfl⟩
  exact (action_validation_scoped_to_current_call stWithComponentA
    [componentB] none (some "executable")
    [(eventNamedE1, [.componentAction componentA "start"])] false true none
    rfl (by simp) eventNamedE1 [.componentAction componentA "start"]
    componentA "start" (by simp) (by simp) (by decide)
    (by decide)).2 stWithComponentA

/-- C6: when the requested fallback name is not among a component's
declared fallbacks, or the bound operation has a parameter without a
default value, the `on_fail` loop body raises the configuration
`ValueError` for that component at configuration time, installs no
fallback on it, and the whole `Launcher.on_fail` call never succeeds —
nothing is deferred to failure time. -/
theorem invalid_fallback_rejected_at_configuration
    (components : List Component) (c : Component) (action_name : String)
    (max_retries : Option Nat) (hc : c ∈ components)
    (hbad : action_name ∉ c.fallbacks ∨
      ∃ params, method_params c action_name = some params ∧ false ∈ params) :
    (∃ e, on_fail_component c action_name max_retries = .error e) ∧
    (∀ f, on_fail_component c action_name max_retries ≠ .ok f) ∧
    (∀ fs, Launcher.on_fail action_name max_retries components ≠ .ok fs) := by
  have herr : ∃ e, on_fail_component c action_name max_retries = .error e := by
    by_cases hf : action_name ∈ c.fallbacks
    · rcases hbad with hnot | ⟨params, hp, hfalse⟩
      · exact absurd hf hnot
      · refine ⟨.requiredArgument c.node_name action_name, ?_⟩
        have hany : params.any (fun has_default => !has_default) = true :=
          List.any_eq_true.mpr ⟨false, hfalse, rfl⟩
        unfold on_fail_component
        rw [if_pos hf, hp]
        simp [hany]
    · exact ⟨.unavailableFallback c.node_name action_name,
        by unfold on_fail_component; rw [if_neg hf]⟩
  obtain ⟨e, he⟩ := herr
  refine ⟨⟨e, he⟩, ?_, ?_⟩
  · intro f hok
    rw [he] at hok
    exact Except.noConfusion hok
  · intro fs hok
    obtain ⟨f, hfok⟩ := on_fail_ok_all action_name max_retries components fs
      hok c hc
    rw [he] at hfok
    exact Except.noConfusion hfok

/-- Witness for C6: the fallback "restart_me" of `componentNeedsArg`
takes a parameter with no default, so configuring it fails. -/
theorem invalid_fallback_rejected_at_configuration_witness :
    Launcher.on_fail "restart_me" (some 2) [componentNeedsArg]
      ≠ .ok [] := by
  exact (invalid_fallback_rejected_at_configuration [componentNeedsArg]
    componentNeedsArg "restart_me" (some 2) (by simp)
    (Or.inr ⟨[false], by decide, by simp⟩)).2.2 []

end RosSugar
